import Mathlib

/-!
Shallow embedding of the two modules of the expense-tracker repository:

* `aiInsights` (src/unnamed/part_000): `generateExpenseInsights`,
  `categorizeExpense` and `generateAIAnswer`, three adapters over a hosted
  generative-model endpoint.  The nondeterministic outcome of each network
  round trip (the call throwing, the response text, and — for the insights
  call — the fate of `JSON.parse` on that text) is passed in explicitly as
  an environment value, and the surrounding deterministic glue
  (JS truthiness defaulting, trimming, allow-list check, fallbacks) is
  translated directly from the source.

* `checkUser` (src/lib/checkUser.ts): find-or-create of an application user
  record from an identity-provider session.  The database is a list of user
  rows plus injectable failure outcomes for `findUnique` and `create`
  (both awaited calls can reject); a thrown JS error is an `Except.error`.

JavaScript semantics captured explicitly: `x || d` replaces falsy values
(`undefined`, `""`, `0`) by the default `d`; template literals render a
`null` field as the string `"null"`; indexing an empty array gives
`undefined`, and reading a property of `undefined` throws a `TypeError`.
-/

namespace ExpenseTracker

/-- JS string defaulting `v || d`: `undefined`/`null` (here `none`) and the
empty string are falsy and are replaced by the default. -/
def jsOrStr : Option String → String → String
  | none, d => d
  | some s, d => if s = "" then d else s

/-- JS number defaulting `v || d`: `undefined`/`null` (here `none`) and `0`
are falsy and are replaced by the default.  (JSON numbers are modelled as
rationals; JSON has no NaN.) -/
def jsOrNum : Option ℚ → ℚ → ℚ
  | none, d => d
  | some c, d => if c = 0 then d else c

/-- JS `String.prototype.trim`: strip leading and trailing whitespace.
Written on the character list so that it is executable by the kernel. -/
def jsTrim (s : String) : String :=
  ⟨((s.data.dropWhile Char.isWhitespace).reverse.dropWhile Char.isWhitespace).reverse⟩

/-- JS template-literal rendering of a possibly-null string field:
`null` interpolates as the literal text "null". -/
def jsFieldString : Option String → String
  | none => "null"
  | some s => s

/-- `ExpenseRecord` from the source interface. -/
structure ExpenseRecord where
  id : String
  amount : ℚ
  category : String
  description : String
  date : String
deriving DecidableEq

/-- One element of the JSON array the model is asked to return
(`RawInsight` in the source): every field may be absent. -/
structure RawInsight where
  type : Option String
  title : Option String
  message : Option String
  action : Option String
  confidence : Option ℚ
deriving DecidableEq

/-- `AIInsight` from the source interface.  `type` is a plain string here
because the TS union annotation performs no runtime check: the mapped
objects come out of `JSON.parse` (type `any`). -/
structure AIInsight where
  id : String
  type : String
  title : String
  message : String
  action : Option String
  confidence : ℚ
deriving DecidableEq

/-- The four insight types named by the `AIInsight` interface. -/
def validInsightTypes : List String := ["warning", "info", "success", "tip"]

/-- The projection `expenses.map(e => ({amount, category, description, date}))`
used to build the prompt. -/
structure ExpenseSummary where
  amount : ℚ
  category : String
  description : String
  date : String
deriving DecidableEq

/-- `expensesSummary` as computed in all three generative functions. -/
def summarizeExpenses (expenses : List ExpenseRecord) : List ExpenseSummary :=
  expenses.map fun e => ⟨e.amount, e.category, e.description, e.date⟩

/-- The fixed fallback insight returned from the catch block of
`generateExpenseInsights`. -/
def fallbackInsight : AIInsight :=
  { id := "fallback-1"
  , type := "info"
  , title := "AI Analysis Unavailable"
  , message := "Unable to generate personalized insights at this time. Please try again later."
  , action := some "Refresh insights"
  , confidence := 1/2 }

/-- The observable outcome of the model round trip inside
`generateExpenseInsights`:  the call can throw; the response text can be
empty (`!responseText` triggers a thrown error); `JSON.parse` on a
non-empty text can throw, succeed with a non-array value (on which
`.map` then throws a `TypeError`), or succeed with an array. -/
inductive UpstreamResult where
  | callThrows
  | emptyText
  | unparsable (text : String)
  | parsedNonArray (text : String)
  | parsedArray (arr : List RawInsight)
deriving DecidableEq

/-- The body of the arrow function passed to `insights.map`: field-level
JS-truthiness defaulting plus the synthetic id `ai-<timestamp>-<index>`. -/
def formatInsight (now : ℕ) (index : ℕ) (insight : RawInsight) : AIInsight :=
  { id := "ai-" ++ toString now ++ "-" ++ toString index
  , type := jsOrStr insight.type "info"
  , title := jsOrStr insight.title "AI Insight"
  , message := jsOrStr insight.message "Analysis complete"
  , action := insight.action
  , confidence := jsOrNum insight.confidence (8/10) }

/-- `insights.map((insight, index) => ...)`: map with the element index,
starting from the accumulator `i`. -/
def formatInsightsFrom (now : ℕ) : ℕ → List RawInsight → List AIInsight
  | _, [] => []
  | i, r :: rs => formatInsight now i r :: formatInsightsFrom now (i + 1) rs

/-- The `try` block of `generateExpenseInsights`:  every failure mode
becomes a thrown error (`Except.error`), a parsed array is formatted
element by element. -/
def insightsTryBlock (env : UpstreamResult) (now : ℕ)
    (expenses : List ExpenseRecord) : Except String (List AIInsight) :=
  match env with
  | .callThrows => .error "model call threw"
  | .emptyText => .error "No response from AI"
  | .unparsable _ => .error "JSON.parse threw"
  | .parsedNonArray _ => .error "insights.map is not a function"
  | .parsedArray arr =>
    let _ := summarizeExpenses expenses
    .ok (formatInsightsFrom now 0 arr)

/-- `generateExpenseInsights`: the `try` block with its catch-all fallback;
no failure ever escapes to the caller. -/
def generateExpenseInsights (env : UpstreamResult) (now : ℕ)
    (expenses : List ExpenseRecord) : List AIInsight :=
  match insightsTryBlock env now expenses with
  | .ok insights => insights
  | .error _ => [fallbackInsight]

/-- The fixed category allow-list of `categorizeExpense`. -/
def validCategories : List String :=
  ["Food", "Transportation", "Entertainment", "Shopping", "Bills", "Healthcare", "Other"]

/-- Outcome of the model round trip inside `categorizeExpense`: the call
can throw, or respond with a possibly-undefined text
(`result.response.text()?.trim()`). -/
inductive CategorizeOutcome where
  | callThrows
  | responds (text : Option String)
deriving DecidableEq

/-- `categorizeExpense`: trim the raw response, return it when it is an
exact member of the allow-list (`includes(category || '')`), otherwise
return "Other"; any thrown error is caught and also yields "Other". -/
def categorizeExpense (env : CategorizeOutcome) (description : String) : String :=
  match env with
  | .callThrows => "Other"
  | .responds txt =>
    let category : Option String := txt.map jsTrim
    if category.getD "" ∈ validCategories then category.getD "" else "Other"

/-- The fixed apology string returned from the catch block of
`generateAIAnswer`. -/
def apologyAnswer : String :=
  "I\x27m unable to provide a detailed answer at the moment. Please try refreshing the insights or check your connection."

/-- Outcome of the model round trip inside `generateAIAnswer`. -/
inductive AnswerOutcome where
  | callThrows
  | responds (text : String)
deriving DecidableEq

/-- `generateAIAnswer`: an empty response text is converted to a thrown
error; both that and a throwing call are caught and produce the apology
string; otherwise the trimmed response text is returned. -/
def generateAIAnswer (env : AnswerOutcome) (question : String)
    (context : List ExpenseRecord) : String :=
  let _ := summarizeExpenses context
  match env with
  | .callThrows => apologyAnswer
  | .responds t => if t = "" then apologyAnswer else jsTrim t

/-- The identity-provider session user, with the fields `checkUser` reads.
`emailAddresses` is the list of email-address strings; `firstName` and
`lastName` are nullable in the provider's API. -/
structure SessionUser where
  id : String
  emailAddresses : List String
  firstName : Option String
  lastName : Option String
  imageUrl : String
deriving DecidableEq

/-- A row of the application user table. -/
structure DbUser where
  clerkUserId : String
  email : String
  name : String
  imageUrl : String
deriving DecidableEq

/-- The database as seen by `checkUser`: the user rows plus injectable
failure outcomes for the two awaited calls (`findUnique`, `create`);
`some msg` means the call rejects with that error. -/
structure Db where
  users : List DbUser
  findError : Option String
  createError : Option String
deriving DecidableEq

/-- The record passed to `db.user.create` for a session user and the
email address obtained from `user.emailAddresses[0].emailAddress`. -/
def mkDbUser (user : SessionUser) (email : String) : DbUser :=
  { clerkUserId := user.id
  , email := email
  , name := jsFieldString user.firstName ++ " " ++ jsFieldString user.lastName
  , imageUrl := user.imageUrl }

/-- `checkUser`: return null without a session; look up by the session id
and return an existing row unchanged; otherwise create a new row from the
session's fields.  `findUnique`/`create` rejections and the `TypeError`
from reading `emailAddresses[0].emailAddress` on an empty list propagate
as errors — nothing in the source catches them. -/
def checkUser (session : Option SessionUser) (db : Db) :
    Except String (Option DbUser × Db) :=
  match session with
  | none => .ok (none, db)
  | some user =>
    match db.findError with
    | some e => .error e
    | none =>
      match db.users.find? (fun u => u.clerkUserId == user.id) with
      | some existingUser => .ok (some existingUser, db)
      | none =>
        match user.emailAddresses.head? with
        | none => .error "TypeError: Cannot read properties of undefined"
        | some email =>
          match db.createError with
          | some e => .error e
          | none =>
            let newUser := mkDbUser user email
            .ok (some newUser, { db with users := db.users ++ [newUser] })

/-! ### Helper lemmas -/

/-- Every element produced by the indexed map comes from applying
`formatInsight` to some element of the input array. -/
theorem mem_formatInsightsFrom {now : ℕ} {arr : List RawInsight} {i : AIInsight} :
    ∀ {k : ℕ}, i ∈ formatInsightsFrom now k arr →
      ∃ r ∈ arr, ∃ j, i = formatInsight now j r := by
  induction arr with
  | nil => intro k h; simp [formatInsightsFrom] at h
  | cons a as ih =>
    intro k h
    rw [formatInsightsFrom, List.mem_cons] at h
    rcases h with h | h
    · exact ⟨a, List.mem_cons_self a as, k, h⟩
    · obtain ⟨r, hr, j, hj⟩ := ih h
      exact ⟨r, List.mem_cons_of_mem a hr, j, hj⟩

/-- The indexed map preserves the length of the array. -/
theorem formatInsightsFrom_length (now : ℕ) :
    ∀ (k : ℕ) (arr : List RawInsight),
      (formatInsightsFrom now k arr).length = arr.length := by
  intro k arr
  induction arr generalizing k with
  | nil => rfl
  | cons a as ih => simp [formatInsightsFrom, ih]

/-- The element at position `j` of the indexed map started at accumulator
`k` is the formatted element at position `j`, carrying index `k + j`. -/
theorem formatInsightsFrom_getElem (now : ℕ) :
    ∀ (k j : ℕ) (arr : List RawInsight) (hj : j < arr.length),
      (formatInsightsFrom now k arr)[j]? =
        some (formatInsight now (k + j) (arr.get ⟨j, hj⟩)) := by
  intro k j arr
  induction arr generalizing k j with
  | nil => intro hj; exact absurd hj (by simp)
  | cons a as ih =>
    intro hj
    cases j with
    | zero => simp [formatInsightsFrom]
    | succ n =>
      have hn : n < as.length := by simpa using hj
      have := ih (k + 1) n hn
      simp only [formatInsightsFrom, List.getElem?_cons_succ, this]
      have harith : k + 1 + n = k + (n + 1) := by omega
      simp [harith]

/-- If each present, non-falsy `type` and `confidence` of a raw insight is
valid, then the formatted insight has a valid type and confidence. -/
theorem formatInsight_valid {now j : ℕ} {r : RawInsight}
    (hty : ∀ s, r.type = some s → s ≠ "" → s ∈ validInsightTypes)
    (hcf : ∀ c, r.confidence = some c → c ≠ 0 → 0 ≤ c ∧ c ≤ 1) :
    (formatInsight now j r).type ∈ validInsightTypes ∧
      0 ≤ (formatInsight now j r).confidence ∧
      (formatInsight now j r).confidence ≤ 1 := by
  refine ⟨?_, ?_⟩
  · show jsOrStr r.type "info" ∈ validInsightTypes
    cases h : r.type with
    | none => simp [jsOrStr, validInsightTypes]
    | some s =>
      rw [jsOrStr]
      by_cases hs : s = ""
      · simp [hs, validInsightTypes]
      · simpa [hs] using hty s h hs
  · show 0 ≤ jsOrNum r.confidence (8/10) ∧ jsOrNum r.confidence (8/10) ≤ 1
    cases h : r.confidence with
    | none => rw [jsOrNum]; norm_num
    | some c =>
      rw [jsOrNum]
      by_cases hc : c = 0
      · simp only [hc, if_pos rfl]; norm_num
      · simpa [hc] using hcf c h hc

/-! ### Claim theorems -/

/-- C2 (confirmed): whenever the model call throws, the response text is
empty, or the text fails to parse as JSON, `generateExpenseInsights`
returns exactly the one-element fallback list, whose single element is the
fixed fallback insight with id "fallback-1" and confidence 0.5; the
failure never propagates because the function is total. -/
theorem generateExpenseInsights_failure_fallback :
    (∀ now expenses, generateExpenseInsights .callThrows now expenses = [fallbackInsight]) ∧
    (∀ now expenses, generateExpenseInsights .emptyText now expenses = [fallbackInsight]) ∧
    (∀ now expenses text,
        generateExpenseInsights (.unparsable text) now expenses = [fallbackInsight]) ∧
    fallbackInsight =
      { id := "fallback-1"
      , type := "info"
      , title := "AI Analysis Unavailable"
      , message := "Unable to generate personalized insights at this time. Please try again later."
      , action := some "Refresh insights"
      , confidence := 1/2 } :=
  ⟨fun _ _ => rfl, fun _ _ => rfl, fun _ _ _ => rfl, rfl⟩

/-- C3 (confirmed): `categorizeExpense` always returns a member of the
fixed 7-category set; for a responding call it returns the trimmed output
exactly when that trimmed output is a case-sensitive member of the set and
"Other" otherwise; a throwing call returns "Other"; and the lowercase
response "food" yields "Other". -/
theorem categorizeExpense_allowlist (env : CategorizeOutcome) (description : String) :
    categorizeExpense env description ∈ validCategories ∧
    (∀ t : String,
        categorizeExpense (.responds (some t)) description =
          if jsTrim t ∈ validCategories then jsTrim t else "Other") ∧
    categorizeExpense .callThrows description = "Other" ∧
    categorizeExpense (.responds (some "food")) description = "Other" := by
  refine ⟨?_, fun t => rfl, rfl, rfl⟩
  cases env with
  | callThrows => show "Other" ∈ validCategories; decide
  | responds txt =>
    rw [categorizeExpense]
    split
    · assumption
    · decide

/-- A raw insight carrying a truthy non-member type and an out-of-range
nonzero confidence: `||` defaulting lets both pass through. -/
def corruptRaw : RawInsight :=
  { type := some "bogus", title := none, message := none, action := none
  , confidence := some 5 }

/-- A raw insight with every field absent. -/
def blankRaw : RawInsight :=
  { type := none, title := none, message := none, action := none
  , confidence := none }

/-- C1 counterexample: a parsed array element with type "bogus" and
confidence 5 is returned with exactly those values — the type is outside
{warning, info, success, tip} and the confidence exceeds 1, so neither is
coerced to its default. -/
theorem insight_invalid_values_pass_through :
    (generateExpenseInsights (.parsedArray [corruptRaw]) 0 []).map AIInsight.type
        = ["bogus"] ∧
    (generateExpenseInsights (.parsedArray [corruptRaw]) 0 []).map AIInsight.confidence
        = [5] ∧
    "bogus" ∉ validInsightTypes ∧ ¬ ((5 : ℚ) ≤ 1) := by
  refine ⟨rfl, ?_, by decide, by norm_num⟩
  show [jsOrNum (some 5) (8/10)] = [5]
  norm_num [jsOrNum]

/-- C1 (amended): required fields of a returned insight are never missing,
and `type`/`confidence` are defaulted to "info"/0.8 when the upstream
element omits them; but present truthy values pass through unvalidated, so
type membership and the confidence range are guaranteed only when every
present non-falsy upstream value is itself valid. -/
theorem insight_fields_defaulted_or_passed_through
    (now : ℕ) (expenses : List ExpenseRecord) (arr : List RawInsight)
    (hty : ∀ r ∈ arr, ∀ s, r.type = some s → s ≠ "" → s ∈ validInsightTypes)
    (hcf : ∀ r ∈ arr, ∀ c, r.confidence = some c → c ≠ 0 → 0 ≤ c ∧ c ≤ 1) :
    (∀ i ∈ generateExpenseInsights (.parsedArray arr) now expenses,
        i.type ∈ validInsightTypes ∧ 0 ≤ i.confidence ∧ i.confidence ≤ 1) ∧
    (∀ idx : ℕ, ∀ r : RawInsight, r.type = none →
        (formatInsight now idx r).type = "info") ∧
    (∀ idx : ℕ, ∀ r : RawInsight, r.confidence = none →
        (formatInsight now idx r).confidence = 8/10) := by
  refine ⟨?_, ?_, ?_⟩
  · intro i hi
    have hmem : i ∈ formatInsightsFrom now 0 arr := hi
    obtain ⟨r, hr, j, rfl⟩ := mem_formatInsightsFrom hmem
    exact formatInsight_valid (hty r hr) (hcf r hr)
  · intro idx r h
    show jsOrStr r.type "info" = "info"
    rw [h]
    rfl
  · intro idx r h
    show jsOrNum r.confidence (8/10) = 8/10
    rw [h]
    rfl

/-- C1 witness: on a singleton array whose element omits all fields, the
returned insight has type "info" (a valid type) and confidence 0.8. -/
theorem insight_fields_defaulted_witness :
    (formatInsight 1 0 blankRaw).type ∈ validInsightTypes ∧
    (formatInsight 1 0 blankRaw).type = "info" ∧
    (formatInsight 1 0 blankRaw).confidence = 8/10 := by
  have h := insight_fields_defaulted_or_passed_through 1 [] [blankRaw]
    (by
      intro r hr s hs hne
      rw [List.mem_singleton] at hr
      subst hr
      exact absurd hs (by simp [blankRaw]))
    (by
      intro r hr c hc hne
      rw [List.mem_singleton] at hr
      subst hr
      exact absurd hc (by simp [blankRaw]))
  refine ⟨?_, h.2.1 0 blankRaw rfl, h.2.2 0 blankRaw rfl⟩
  have hm : formatInsight 1 0 blankRaw ∈ generateExpenseInsights (.parsedArray [blankRaw]) 1 [] :=
    List.mem_singleton.mpr rfl
  exact (h.1 _ hm).1

/-- C5 counterexample: when the model responds with the empty JSON array,
`generateExpenseInsights` returns the empty list, not a non-empty one. -/
theorem generateExpenseInsights_empty_array_gives_empty :
    generateExpenseInsights (.parsedArray []) 0 [] = [] := rfl

/-- C5 (amended): `generateExpenseInsights` returns a non-empty list on
every failure path and on every successful parse of a non-empty JSON
array; the one exception is a successful parse of the empty array, which
yields the empty list. -/
theorem generateExpenseInsights_nonempty_unless_empty_array
    (env : UpstreamResult) (now : ℕ) (expenses : List ExpenseRecord)
    (h : ∀ arr, env = .parsedArray arr → arr ≠ []) :
    generateExpenseInsights env now expenses ≠ [] := by
  cases env with
  | parsedArray arr =>
    cases arr with
    | nil => exact absurd rfl (h [] rfl)
    | cons a as =>
      show formatInsight now 0 a :: formatInsightsFrom now 1 as ≠ []
      exact List.cons_ne_nil _ _
  | callThrows => exact List.cons_ne_nil _ _
  | emptyText => exact List.cons_ne_nil _ _
  | unparsable t => exact List.cons_ne_nil _ _
  | parsedNonArray t => exact List.cons_ne_nil _ _

/-- C5 witness: a throwing model call yields a non-empty result. -/
theorem generateExpenseInsights_nonempty_witness :
    generateExpenseInsights .callThrows 0 [] ≠ [] :=
  generateExpenseInsights_nonempty_unless_empty_array .callThrows 0 []
    (fun arr h => by cases h)

/-- C6 counterexample: a successful call whose response text is whitespace
only ("   " is truthy, so no error is thrown) returns the empty string —
neither a non-empty trimmed string nor the apology string. -/
theorem generateAIAnswer_whitespace_gives_empty :
    generateAIAnswer (.responds "   ") "q" [] = "" ∧
    generateAIAnswer (.responds "   ") "q" [] ≠ apologyAnswer := by
  refine ⟨rfl, ?_⟩
  rw [show generateAIAnswer (.responds "   ") "q" [] = "" from rfl]
  decide

/-- C6 (amended): on a successful call with non-empty response text,
`generateAIAnswer` returns the trimmed response text (which is empty when
the text is whitespace only); on a throwing call or an empty response text
it returns the fixed apology string. -/
theorem generateAIAnswer_trim_or_apology (question : String)
    (context : List ExpenseRecord) :
    (∀ t : String, t ≠ "" →
        generateAIAnswer (.responds t) question context = jsTrim t) ∧
    generateAIAnswer .callThrows question context = apologyAnswer ∧
    generateAIAnswer (.responds "") question context = apologyAnswer := by
  refine ⟨fun t ht => ?_, rfl, rfl⟩
  show (if t = "" then apologyAnswer else jsTrim t) = jsTrim t
  rw [if_neg ht]

/-- C6 witness: the response " hello " is trimmed to "hello". -/
theorem generateAIAnswer_trim_or_apology_witness :
    generateAIAnswer (.responds " hello ") "q" [] = "hello" := by
  have h := (generateAIAnswer_trim_or_apology "q" []).1 " hello " (by decide)
  rw [h]
  rfl

/-- C9 (confirmed): on a parsed JSON array the output has the same length
as the array, the element at each position `j` is the formatted element at
position `j` of the array, and its synthetic id is "ai-<now>-<j>" with the
ordinal equal to the position. -/
theorem generateExpenseInsights_preserves_length_and_order
    (now : ℕ) (expenses : List ExpenseRecord) (arr : List RawInsight) :
    (generateExpenseInsights (.parsedArray arr) now expenses).length = arr.length ∧
    ∀ j, ∀ hj : j < arr.length,
      (generateExpenseInsights (.parsedArray arr) now expenses)[j]? =
          some (formatInsight now j (arr.get ⟨j, hj⟩)) ∧
        (formatInsight now j (arr.get ⟨j, hj⟩)).id =
          "ai-" ++ toString now ++ "-" ++ toString j := by
  constructor
  · show (formatInsightsFrom now 0 arr).length = arr.length
    exact formatInsightsFrom_length now 0 arr
  · intro j hj
    constructor
    · show (formatInsightsFrom now 0 arr)[j]? = _
      rw [formatInsightsFrom_getElem now 0 j arr hj]
      simp
    · rfl

/-- C9 witness: at timestamp 7, position 0 of a singleton array maps to
the formatted element with id "ai-7-0". -/
theorem generateExpenseInsights_order_witness :
    (generateExpenseInsights (.parsedArray [blankRaw]) 7 [])[0]? =
        some (formatInsight 7 0 blankRaw) ∧
      (formatInsight 7 0 blankRaw).id = "ai-7-0" := by
  have h := (generateExpenseInsights_preserves_length_and_order 7 [] [blankRaw]).2 0
    (by decide)
  have h2 : (formatInsight 7 0 blankRaw).id = "ai-" ++ toString 7 ++ "-" ++ toString 0 := h.2
  exact ⟨h.1, h2.trans (by decide)⟩

/-- A session user with one email address and both name parts present. -/
def sessionUserA : SessionUser :=
  { id := "user-1", emailAddresses := ["a@example.com"], firstName := some "Ada"
  , lastName := some "Lovelace", imageUrl := "https://img.example/a.png" }

/-- A session user whose email-address list is empty. -/
def noEmailUser : SessionUser :=
  { id := "user-2", emailAddresses := [], firstName := none, lastName := none
  , imageUrl := "https://img.example/b.png" }

/-- A session user with an email address but no first or last name. -/
def anonymousUser : SessionUser :=
  { id := "user-3", emailAddresses := ["c@example.com"], firstName := none
  , lastName := none, imageUrl := "https://img.example/c.png" }

/-- An empty, healthy database. -/
def emptyDb : Db := { users := [], findError := none, createError := none }

/-- A database whose lookup call rejects. -/
def downDb : Db := { users := [], findError := some "db down", createError := none }

/-- A database whose creation call rejects. -/
def createFailDb : Db :=
  { users := [], findError := none, createError := some "create failed" }

/-- C4 (confirmed): `checkUser` returns null without a session; with a
session and a matching row it returns that row and leaves the database
unchanged; with no matching row it creates and returns a record whose
externalId is the session id, email is the first session email address,
name is the interpolated first and last name, and imageUrl is the session
avatar URL. -/
theorem checkUser_find_or_create (user : SessionUser) (db : Db)
    (hf : db.findError = none) (hc : db.createError = none) :
    (∀ anyDb : Db, checkUser none anyDb = .ok (none, anyDb)) ∧
    (∀ existing, db.users.find? (fun u => u.clerkUserId == user.id) = some existing →
        checkUser (some user) db = .ok (some existing, db)) ∧
    (db.users.find? (fun u => u.clerkUserId == user.id) = none →
      ∀ email rest, user.emailAddresses = email :: rest →
        checkUser (some user) db =
          .ok (some (mkDbUser user email),
            { db with users := db.users ++ [mkDbUser user email] })) ∧
    (∀ email, (mkDbUser user email).clerkUserId = user.id ∧
        (mkDbUser user email).email = email ∧
        (mkDbUser user email).name =
          jsFieldString user.firstName ++ " " ++ jsFieldString user.lastName ∧
        (mkDbUser user email).imageUrl = user.imageUrl) := by
  refine ⟨fun anyDb => rfl, ?_, ?_, fun email => ⟨rfl, rfl, rfl, rfl⟩⟩
  · intro existing hex
    simp only [checkUser]
    rw [hf, hex]
  · intro hfind email rest hmail
    simp only [checkUser]
    rw [hf, hfind, hmail, hc]
    rfl

/-- C4 witness: on an empty database, a session for a fresh identity
creates and returns the derived record. -/
theorem checkUser_find_or_create_witness :
    checkUser (some sessionUserA) emptyDb =
      .ok (some (mkDbUser sessionUserA "a@example.com"),
        { users := [mkDbUser sessionUserA "a@example.com"]
        , findError := none, createError := none }) := by
  have h := checkUser_find_or_create sessionUserA emptyDb rfl rfl
  exact h.2.2.1 rfl "a@example.com" [] rfl

/-- C7 (confirmed): a rejection of the database lookup, or of the creation
call on the creation path, propagates out of `checkUser` as an uncaught
error; in contrast, a throwing `try` block of the insights function is
always converted to the fallback list rather than surfaced. -/
theorem checkUser_db_errors_propagate (user : SessionUser) (db : Db) :
    (∀ e, db.findError = some e → checkUser (some user) db = .error e) ∧
    (∀ e, db.findError = none → db.createError = some e →
        db.users.find? (fun u => u.clerkUserId == user.id) = none →
        ∀ email rest, user.emailAddresses = email :: rest →
          checkUser (some user) db = .error e) ∧
    (∀ env now expenses msg, insightsTryBlock env now expenses = .error msg →
        generateExpenseInsights env now expenses = [fallbackInsight]) := by
  refine ⟨?_, ?_, ?_⟩
  · intro e he
    simp only [checkUser]
    rw [he]
  · intro e hf hc hfind email rest hmail
    simp only [checkUser]
    rw [hf, hfind, hmail, hc]
    rfl
  · intro env now expenses msg hmsg
    unfold generateExpenseInsights
    rw [hmsg]

/-- C7 witness: a rejected lookup surfaces its error to the caller. -/
theorem checkUser_db_errors_propagate_witness :
    checkUser (some sessionUserA) downDb = .error "db down" :=
  (checkUser_db_errors_propagate sessionUserA downDb).1 "db down" rfl

/-- C8 (confirmed): with a session, no matching row and an empty
email-address list, `checkUser` fails with the TypeError from dereferencing
`emailAddresses[0].emailAddress` instead of returning null or creating a
record. -/
theorem checkUser_empty_email_list_throws (user : SessionUser) (db : Db)
    (hf : db.findError = none)
    (hfind : db.users.find? (fun u => u.clerkUserId == user.id) = none)
    (hmail : user.emailAddresses = []) :
    checkUser (some user) db =
      .error "TypeError: Cannot read properties of undefined" := by
  simp only [checkUser]
  rw [hf, hfind, hmail]
  rfl

/-- C8 witness: a session user with no email addresses makes `checkUser`
fail on an empty database. -/
theorem checkUser_empty_email_list_throws_witness :
    checkUser (some noEmailUser) emptyDb =
      .error "TypeError: Cannot read properties of undefined" :=
  checkUser_empty_email_list_throws noEmailUser emptyDb rfl rfl rfl

/-- C10 (confirmed): the created record's name is always the two name
parts joined by one space through template-literal interpolation, and a
null part is rendered as the literal text "null", so a user with neither
name gets the stored name "null null". -/
theorem checkUser_created_name_interpolation (user : SessionUser) (db : Db)
    (hf : db.findError = none) (hc : db.createError = none)
    (hfind : db.users.find? (fun u => u.clerkUserId == user.id) = none)
    (email : String) (rest : List String)
    (hmail : user.emailAddresses = email :: rest) :
    checkUser (some user) db =
      .ok (some (mkDbUser user email),
        { db with users := db.users ++ [mkDbUser user email] }) ∧
    (mkDbUser user email).name =
      jsFieldString user.firstName ++ " " ++ jsFieldString user.lastName ∧
    (user.firstName = none → user.lastName = none →
      (mkDbUser user email).name = "null null") ∧
    jsFieldString none = "null" := by
  refine ⟨?_, rfl, ?_, rfl⟩
  · simp only [checkUser]
    rw [hf, hfind, hmail, hc]
    rfl
  · intro h1 h2
    show jsFieldString user.firstName ++ " " ++ jsFieldString user.lastName = "null null"
    rw [h1, h2]
    rfl

/-- C10 witness: a session user with neither first nor last name gets the
stored name "null null". -/
theorem checkUser_created_name_interpolation_witness :
    (mkDbUser anonymousUser "c@example.com").name = "null null" := by
  have h := checkUser_created_name_interpolation anonymousUser emptyDb rfl rfl rfl
    "c@example.com" [] rfl
  exact h.2.2.1 rfl rfl

end ExpenseTracker
